import Mathlib

/-!
Verification of the chunking + concurrent embedding pipeline of the `curs-etl`
repository, as a shallow embedding in Lean 4.

Conventions used throughout:
* Python `str` is modelled by `String`; Python `str.strip()` is modelled by
  `pyStrip` (dropping ASCII whitespace from both ends).
* Python machine-level `float` values stored in embedding vectors are never
  computed with by the code under study (they are opaque payload copied from
  the API response into `Chunk.vector`), so vector entries are modelled by an
  inert scalar type, `Int`.
* Network I/O is modelled by oracle functions passed explicitly: the outcome
  of each HTTP request becomes a parameter of the embedded function.
* Exceptions are modelled by explicit result constructors.
-/

set_option autoImplicit false

namespace CursEtl

/-! ### Python string primitives -/

/-- ASCII whitespace recognised by Python's `str.strip()` (the code under
study only ever feeds it text; non-ASCII whitespace is not relevant to any
claim and is not modelled). -/
def isPySpace (c : Char) : Bool :=
  c = ' ' || c = '\t' || c = '\n' || c = '\r' || c = '\x0b' || c = '\x0c'

/-- `str.strip()` on the character list: drop whitespace from both ends. -/
def pyStripList (l : List Char) : List Char :=
  ((l.dropWhile isPySpace).reverse.dropWhile isPySpace).reverse

/-- Python `str.strip()`. -/
def pyStrip (s : String) : String :=
  String.mk (pyStripList s.data)

/-- Slice a list into contiguous blocks of `n` elements (the final block may
be shorter), as Python's `l[i:i+n]` loop does.  Driven by a fuel argument so
that the definition is total; with `0 < n` the fuel `l.length` is enough. -/
def chunksOfAux {α : Type} (n : Nat) : Nat → List α → List (List α)
  | 0, _ => []
  | _ + 1, [] => []
  | fuel + 1, l => l.take n :: chunksOfAux n fuel (l.drop n)

/-- Contiguous blocks of `n` elements of `l`, in order. -/
def chunksOf {α : Type} (n : Nat) (l : List α) : List (List α) :=
  chunksOfAux n l.length l

/-! ### Data model (`models/chunk.py`, `embedding_processor.py`) -/

/-- `models/chunk.py` — the `Chunk` dataclass.  The `metadata` dict carries
opaque source-specific values; it is modelled as a string association list. -/
structure Chunk where
  id : String := ""
  vector : List Int := []
  source : String := ""
  type : String := ""
  id_in_source : String := ""
  title : Option String := none
  url : Option String := none
  text : String := ""
  chunk_index : Nat := 0
  chunk_count : Nat := 1
  created_at : Option String := none
  updated_at : Option String := none
  author : Option String := none
  metadata : List (String × String) := []
deriving DecidableEq, Repr

/-- `embedding_processor.py` — the `EmbeddingStats` dataclass. -/
structure EmbeddingStats where
  total_chunks : Nat
  processed_chunks : Nat
  failed_chunks : Nat
  total_tokens : Nat
  total_characters : Nat
deriving DecidableEq, Repr

/-- `batch_processor.py` — the `BatchConfig` dataclass.  The
`progress_callback` field holds an arbitrary Python callable or `None`; only
its presence is configuration (its behaviour lives in `ServiceEnv`). -/
structure BatchConfig where
  batch_size : Nat := 10
  max_concurrent_batches : Nat := 3
  delay_between_batches : Rat := (1 : Rat) / 2
  has_progress_callback : Bool := false
deriving DecidableEq, Repr

/-! ### `yandex_client.py` — `get_embeddings_batch` -/

/-- Python truthiness of `text and text.strip()` in `get_embeddings_batch`:
a text survives the filter iff its strip is non-empty. -/
def pyTextValid (s : String) : Bool :=
  pyStrip s ≠ ""

/-- `YandexEmbeddingClient.get_embeddings_batch` (lines 124-179).
`call i t` is the outcome of the `get_embedding` task created for the text
`t` at original position `i`: `some (vector, numTokens)` when the request
succeeds, `none` when the task raises (the exception is swallowed by
`asyncio.gather(..., return_exceptions=True)`).  The function filters blank
texts, places each surviving result into `results[original_index]`, and
returns the non-`None` entries. -/
def get_embeddings_batch (call : Nat → String → Option (List Int × Nat))
    (texts : List String) : List (List Int × Nat) :=
  if texts.isEmpty then []
  else
    let valid_texts := texts.enum.filter fun p => pyTextValid p.2
    if valid_texts.isEmpty then []
    else
      let results := valid_texts.foldl
        (fun acc p => acc.set p.1 (call p.1 p.2))
        (List.replicate texts.length (none : Option (List Int × Nat)))
      results.reduceOption

/-! ### `batch_processor.py` — the coordinator -/

/-- Observable effects of one coordinator run, in program order: the awaited
`get_embeddings_batch` call of a group, the progress-callback invocation
(with the arguments the code passes), and the `asyncio.sleep` rate-limiting
pause executed while the group still holds its semaphore slot. -/
inductive Ev where
  | apiCall (batch_index : Nat)
  | progressCb (completed total : Nat)
  | sleep (duration : Rat)
deriving DecidableEq, Repr

/-- Behaviour of the outside world during one coordinator run, indexed by the
`batch_index` of each group (the chunk offset `i` used by the source).
`batchRaises i` — the `get_embeddings_batch` call for group `i` raises;
`call i j t` — outcome of the individual embedding request for the text `t`
at position `j` within group `i`; `cbThrows i` — the progress callback raises
when invoked after group `i`. -/
structure ServiceEnv where
  batchRaises : Nat → Bool
  call : Nat → Nat → String → Option (List Int × Nat)
  cbThrows : Nat → Bool

/-- Mutable state shared by the group handlers: the `processed_chunks` output
list, the `total_stats` accumulator, and the effect trace. -/
structure RunState where
  out : List Chunk
  stats : EmbeddingStats
  trace : List Ev
deriving DecidableEq, Repr

/-- `process_batch_with_semaphore` (batch_processor.py lines 68-104), the body
run for one group while holding a semaphore slot.  Control flow of the `try`:
the batch call; on its success the positional `zip` of the group's chunks
with the (possibly shorter) results list, mutating `chunk.vector` and
appending to the output; the optional progress callback; the rate-limiting
sleep.  Any exception inside the `try` — a raising batch call or a raising
callback — lands in the `except` branch, which appends every chunk of the
group (in its current, possibly already mutated and already appended, state)
and increments `failed_chunks` by the group size. -/
def process_batch_with_semaphore (env : ServiceEnv) (cfg : BatchConfig)
    (total : Nat) (batch_index : Nat) (batch : List Chunk) (st : RunState) :
    RunState :=
  if env.batchRaises batch_index then
    { st with
      out := st.out ++ batch
      stats := { st.stats with
        failed_chunks := st.stats.failed_chunks + batch.length }
      trace := st.trace ++ [Ev.apiCall batch_index] }
  else
    let results := get_embeddings_batch (env.call batch_index)
      (batch.map fun c => c.text)
    let paired := batch.zip results
    let embedded := paired.map fun p => { p.1 with vector := p.2.1 }
    let st1 : RunState :=
      { out := st.out ++ embedded
        stats := { st.stats with
          processed_chunks := st.stats.processed_chunks + paired.length
          total_tokens :=
            st.stats.total_tokens + (paired.map fun p => p.2.2).sum
          total_characters :=
            st.stats.total_characters + (paired.map fun p => p.1.text.length).sum }
        trace := st.trace ++ [Ev.apiCall batch_index] }
    if cfg.has_progress_callback then
      let st2 := { st1 with
        trace := st1.trace ++ [Ev.progressCb st1.out.length total] }
      if env.cbThrows batch_index then
        { st2 with
          out := st2.out ++ (embedded ++ batch.drop paired.length)
          stats := { st2.stats with
            failed_chunks := st2.stats.failed_chunks + batch.length } }
      else if 0 < cfg.delay_between_batches then
        { st2 with trace := st2.trace ++ [Ev.sleep cfg.delay_between_batches] }
      else st2
    else if 0 < cfg.delay_between_batches then
      { st1 with trace := st1.trace ++ [Ev.sleep cfg.delay_between_batches] }
    else st1

/-- The `batches` list built by `process_chunks_advanced`: pairs of the chunk
offset `i` (used as `batch_index`) and the slice `chunks[i:i+batch_size]`. -/
def mkBatches (batch_size : Nat) (chunks : List Chunk) : List (Nat × List Chunk) :=
  (chunksOf batch_size chunks).enum.map fun p => (p.1 * batch_size, p.2)

/-- `BatchEmbeddingProcessor.process_chunks_advanced` (lines 29-120).  Group
handlers run under the semaphore; every mutation of the shared state happens
between `await` points, so each handler's update block is atomic and every
handler runs exactly once — the run is modelled as a fold over the groups.
Returns the output chunk list, the statistics and the effect trace. -/
def process_chunks_advanced (env : ServiceEnv) (cfg : BatchConfig)
    (chunks : List Chunk) : List Chunk × EmbeddingStats × List Ev :=
  if chunks.isEmpty then ([], ⟨0, 0, 0, 0, 0⟩, [])
  else
    let init : RunState := ⟨[], ⟨chunks.length, 0, 0, 0, 0⟩, []⟩
    let final := (mkBatches cfg.batch_size chunks).foldl
      (fun st p => process_batch_with_semaphore env cfg chunks.length p.1 p.2 st)
      init
    (final.out, final.stats, final.trace)

/-! ### `yandex_client.py` — `get_embedding` retry loop -/

/-- What one iteration of the retry loop in `get_embedding` observes from the
network: a 200 response with a parsed embedding, a non-200 response (status
and body), an `asyncio.TimeoutError`, an `aiohttp.ClientError`, or any other
exception (e.g. a malformed response body). -/
inductive Attempt where
  | success (embedding : List Int) (numTokens : Nat)
  | apiError (status : Nat) (body : String)
  | timeout
  | netError (msg : String)
  | otherError (msg : String)
deriving DecidableEq, Repr

/-- Result of `get_embedding`: the parsed `(embedding, num_tokens)` pair, or
the message of the raised `YandexEmbeddingError`. -/
inductive EmbedResult where
  | ok (embedding : List Int) (numTokens : Nat)
  | error (msg : String)
deriving DecidableEq, Repr

/-- The `for attempt in range(max_retries)` loop of `get_embedding`
(lines 86-122).  `att a` is what attempt number `a` observes.  A non-200
response raises `YandexEmbeddingError(f"API error {status}: {body}")`
*inside* the `try`, where the generic `except Exception` handler catches it:
on the last attempt it is re-raised wrapped as `"Unexpected error: ..."`,
otherwise the loop continues into the next attempt exactly like a timeout or
a network error.  Returns the result and the number of attempts performed. -/
def get_embedding_go (att : Nat → Attempt) (max_retries : Nat) :
    Nat → Nat → EmbedResult × Nat
  | 0, attempt => (.error "Failed after all retries", attempt)
  | remaining + 1, attempt =>
    match att attempt with
    | .success e t => (.ok e t, attempt + 1)
    | .apiError status body =>
      if attempt = max_retries - 1 then
        (.error ("Unexpected error: API error " ++ toString status ++ ": " ++ body),
          attempt + 1)
      else get_embedding_go att max_retries remaining (attempt + 1)
    | .timeout =>
      if attempt = max_retries - 1 then
        (.error "Request timeout after all retries", attempt + 1)
      else get_embedding_go att max_retries remaining (attempt + 1)
    | .netError m =>
      if attempt = max_retries - 1 then
        (.error ("Network error after all retries: " ++ m), attempt + 1)
      else get_embedding_go att max_retries remaining (attempt + 1)
    | .otherError m =>
      if attempt = max_retries - 1 then
        (.error ("Unexpected error: " ++ m), attempt + 1)
      else get_embedding_go att max_retries remaining (attempt + 1)

/-- `YandexEmbeddingClient.get_embedding` (lines 62-122): the blank-text
guard followed by the retry loop.  The second component counts the attempts
that were actually performed. -/
def get_embedding (att : Nat → Attempt) (max_retries : Nat) (text : String) :
    EmbedResult × Nat :=
  if pyStrip text = "" then (.error "Text cannot be empty", 0)
  else get_embedding_go att max_retries max_retries 0

/-! ### `yandex_client.py` — client construction -/

/-- Fields actually declared by the `YandexEmbeddingConfig` dataclass
(lines 10-20).  Note there is no `api_key` field — the credential field is
named `auth`. -/
structure YandexEmbeddingConfig where
  folder_id : String
  auth : Option String := none
  iam_token : Option String := none
  embed_model : String := "text-search-query/latest"
  embedding_dimension : Option Nat := none
  request_timeout : Nat := 60
  max_retries : Nat := 3
  api_endpoint : String := "https://llm.api.cloud.yandex.net"
deriving DecidableEq, Repr

/-- Outcome of running `YandexEmbeddingClient.__init__`: it returns, or a
`YandexEmbeddingError` propagates, or an `AttributeError` for a missing
dataclass attribute propagates. -/
inductive InitOutcome where
  | ok
  | yandexError (msg : String)
  | attributeError (attr : String)
deriving DecidableEq, Repr

/-- Python attribute access `getattr(config, attr)` restricted to the
truthiness the validator tests: `Except.error attr` is an `AttributeError`
(the dataclass declares no such field), `Except.ok b` gives the truthiness
of the field's value. -/
def configAttrTruthy (cfg : YandexEmbeddingConfig) : String → Except String Bool
  | "folder_id" => .ok (cfg.folder_id ≠ "")
  | "auth" => .ok (cfg.auth.getD "" ≠ "")
  | "iam_token" => .ok (cfg.iam_token.getD "" ≠ "")
  | "embed_model" => .ok (cfg.embed_model ≠ "")
  | "embedding_dimension" => .ok (cfg.embedding_dimension.getD 0 ≠ 0)
  | "request_timeout" => .ok (cfg.request_timeout ≠ 0)
  | "max_retries" => .ok (cfg.max_retries ≠ 0)
  | "api_endpoint" => .ok (cfg.api_endpoint ≠ "")
  | attr => .error attr

/-- `_validate_config` (lines 33-42): checks `self.config.folder_id`, then
reads `self.config.api_key` — an attribute the dataclass does not declare. -/
def validate_config (cfg : YandexEmbeddingConfig) : InitOutcome :=
  match configAttrTruthy cfg "folder_id" with
  | .error a => .attributeError a
  | .ok folderOk =>
    if ¬ folderOk then .yandexError "folder_id is required"
    else
      match configAttrTruthy cfg "api_key" with
      | .error a => .attributeError a
      | .ok apiKeyOk =>
        match configAttrTruthy cfg "iam_token" with
        | .error a => .attributeError a
        | .ok iamOk =>
          if ¬ apiKeyOk ∧ ¬ iamOk then
            .yandexError "Either api_key or iam_token must be provided"
          else .ok

/-- `YandexEmbeddingClient.__init__` (lines 29-31): stores the config and
runs `_validate_config` before any I/O can happen. -/
def clientInit (cfg : YandexEmbeddingConfig) : InitOutcome :=
  validate_config cfg

/-! ### `utils/common/id_generator.py` — deterministic chunk ids

`generate_deterministic_id` calls `uuid.uuid5(NAMESPACE_URL, name)`:
SHA-1 over the namespace bytes followed by the UTF-8 encoding of the name,
truncated to 16 bytes, with the version nibble forced to 5 and the variant
bits forced to RFC 4122, rendered as lowercase hex in 8-4-4-4-12 form.
SHA-1 is implemented here in full over byte lists (`Nat` values < 256),
with 32-bit arithmetic done modulo `2^32`. -/

/-- UTF-8 encoding of one code point (`str.encode("utf-8")` per character). -/
def utf8EncodeCharNat (c : Char) : List Nat :=
  let n := c.toNat
  if n < 128 then [n]
  else if n < 2048 then [192 + n / 64, 128 + n % 64]
  else if n < 65536 then [224 + n / 4096, 128 + n / 64 % 64, 128 + n % 64]
  else [240 + n / 262144, 128 + n / 4096 % 64, 128 + n / 64 % 64, 128 + n % 64]

/-- UTF-8 bytes of a string. -/
def utf8Bytes (s : String) : List Nat :=
  s.data.flatMap utf8EncodeCharNat

/-- `2^32`, the modulus of SHA-1's word arithmetic. -/
def M32 : Nat := 4294967296

/-- 32-bit left rotation. -/
def rotl32 (x n : Nat) : Nat :=
  ((x <<< n) ||| (x >>> (32 - n))) % M32

/-- The SHA-1 round function `f_t`. -/
def sha1F (t b c d : Nat) : Nat :=
  if t < 20 then (b &&& c) ||| ((b ^^^ 4294967295) &&& d)
  else if t < 40 then b ^^^ c ^^^ d
  else if t < 60 then (b &&& c) ||| (b &&& d) ||| (c &&& d)
  else b ^^^ c ^^^ d

/-- The SHA-1 round constants `K_t`. -/
def sha1K (t : Nat) : Nat :=
  if t < 20 then 1518500249
  else if t < 40 then 1859775393
  else if t < 60 then 2400959708
  else 3395469782

/-- Big-endian word from (at most four) bytes. -/
def wordOfBytesBE (bs : List Nat) : Nat :=
  bs.foldl (fun a b => a * 256 + b) 0

/-- Big-endian bytes of a 32-bit word. -/
def toBytesBE32 (x : Nat) : List Nat :=
  [x / 16777216 % 256, x / 65536 % 256, x / 256 % 256, x % 256]

/-- Big-endian bytes of a 64-bit value (the padded bit length). -/
def toBytesBE64 (x : Nat) : List Nat :=
  [x / 2 ^ 56 % 256, x / 2 ^ 48 % 256, x / 2 ^ 40 % 256, x / 2 ^ 32 % 256,
   x / 16777216 % 256, x / 65536 % 256, x / 256 % 256, x % 256]

/-- SHA-1 message padding: `0x80`, zeros to 56 mod 64, 64-bit bit length. -/
def sha1Pad (msg : List Nat) : List Nat :=
  let len := msg.length
  let z := (120 - (len + 1) % 64) % 64
  msg ++ [128] ++ List.replicate z 0 ++ toBytesBE64 (len * 8)

/-- Extend the message schedule with word `t`
(`W_t = rotl1 (W_{t-3} xor W_{t-8} xor W_{t-14} xor W_{t-16})`). -/
def sha1ExtendW (w : Array Nat) (t : Nat) : Array Nat :=
  w.push (rotl32 ((w.getD (t - 3) 0) ^^^ (w.getD (t - 8) 0) ^^^
    (w.getD (t - 14) 0) ^^^ (w.getD (t - 16) 0)) 1)

/-- One SHA-1 round on the five-word state. -/
def sha1Round (st : Nat × Nat × Nat × Nat × Nat) (tw : Nat × Nat) :
    Nat × Nat × Nat × Nat × Nat :=
  let a := st.1
  let b := st.2.1
  let c := st.2.2.1
  let d := st.2.2.2.1
  let e := st.2.2.2.2
  let temp := (rotl32 a 5 + sha1F tw.1 b c d + e + sha1K tw.1 + tw.2) % M32
  (temp, a, rotl32 b 30, c, d)

/-- Compress one 64-byte block into the running hash value. -/
def sha1Compress (h : List Nat) (block : List Nat) : List Nat :=
  let w0 := (chunksOf 4 block).map wordOfBytesBE
  let w := ((List.range 64).foldl (fun w k => sha1ExtendW w (k + 16)) w0.toArray).toList
  let init := (h.getD 0 0, h.getD 1 0, h.getD 2 0, h.getD 3 0, h.getD 4 0)
  let f := ((List.range 80).zip w).foldl sha1Round init
  [(h.getD 0 0 + f.1) % M32, (h.getD 1 0 + f.2.1) % M32,
   (h.getD 2 0 + f.2.2.1) % M32, (h.getD 3 0 + f.2.2.2.1) % M32,
   (h.getD 4 0 + f.2.2.2.2) % M32]

/-- The SHA-1 state of the empty message. -/
def sha1Init : List Nat :=
  [1732584193, 4023233417, 2562383102, 271733878, 3285377520]

/-- SHA-1 digest (20 bytes) of a byte list. -/
def sha1 (msg : List Nat) : List Nat :=
  ((chunksOf 64 (sha1Pad msg)).foldl sha1Compress sha1Init).flatMap toBytesBE32

/-- The bytes of `uuid.NAMESPACE_URL`
(`6ba7b811-9dad-11d1-80b4-00c04fd430c8`). -/
def namespaceURLBytes : List Nat :=
  [107, 167, 184, 17, 157, 173, 17, 209, 128, 180, 0, 192, 79, 212, 48, 200]

/-- Lowercase hex digit. -/
def hexDigitChar (n : Nat) : Char :=
  "0123456789abcdef".data.getD n '0'

/-- Two lowercase hex digits of a byte. -/
def hexByte (b : Nat) : List Char :=
  [hexDigitChar (b / 16), hexDigitChar (b % 16)]

/-- Digest byte 6 with the version nibble forced to 5
(`(b and 0x0F) or 0x50`). -/
def uuidVersionByte (b : Nat) : Nat :=
  (b &&& 15) ||| 80

/-- Digest byte 8 with the variant bits forced to RFC 4122
(`(b and 0x3F) or 0x80`). -/
def uuidVariantByte (b : Nat) : Nat :=
  (b &&& 63) ||| 128

/-- Render the first 16 digest bytes, with version and variant forced, in
the standard dashed 8-4-4-4-12 lowercase-hex text form (`str(uuid_value)`). -/
def uuidStringOfDigest (d : List Nat) : String :=
  String.mk
    (hexByte (d.getD 0 0) ++ hexByte (d.getD 1 0) ++ hexByte (d.getD 2 0) ++
      hexByte (d.getD 3 0) ++ ['-'] ++
      hexByte (d.getD 4 0) ++ hexByte (d.getD 5 0) ++ ['-'] ++
      hexByte (uuidVersionByte (d.getD 6 0)) ++ hexByte (d.getD 7 0) ++ ['-'] ++
      hexByte (uuidVariantByte (d.getD 8 0)) ++ hexByte (d.getD 9 0) ++ ['-'] ++
      hexByte (d.getD 10 0) ++ hexByte (d.getD 11 0) ++ hexByte (d.getD 12 0) ++
      hexByte (d.getD 13 0) ++ hexByte (d.getD 14 0) ++ hexByte (d.getD 15 0))

/-- `uuid.uuid5(namespace, name)` rendered with `str(...)`. -/
def uuid5String (ns : List Nat) (name : String) : String :=
  uuidStringOfDigest (sha1 (ns ++ utf8Bytes name))

/-- The f-string `f"{source}|{id_in_source}|{chunk_index}"`. -/
def canonicalChunkName (source id_in_source : String) (chunk_index : Int) : String :=
  source ++ "|" ++ id_in_source ++ "|" ++ toString chunk_index

namespace ChunkIDGenerator

/-- `ChunkIDGenerator.generate_deterministic_id` (id_generator.py lines 9-17):
`str(uuid5(NAMESPACE_URL, f"{source}|{id_in_source}|{chunk_index}"))`. -/
def generate_deterministic_id (source id_in_source : String)
    (chunk_index : Int) : String :=
  uuid5String namespaceURLBytes (canonicalChunkName source id_in_source chunk_index)

end ChunkIDGenerator

/-! ### `utils/text/text_splitter.py` -/

/-- Character-level fallback cut: fixed windows of `chunk_size` characters,
each subsequent window starting `chunk_size - overlap` characters later
(fuel-driven; `text.length + 1` fuel is enough when the step is positive). -/
def hardCutAux (chunk_size step : Nat) : Nat → String → List String
  | 0, t => [t]
  | fuel + 1, t =>
    if t.length ≤ chunk_size then [t]
    else t.take chunk_size :: hardCutAux chunk_size step fuel (t.drop step)

/-- Modelled from the spec: the separator-free final level of
`langchain_text_splitters.RecursiveCharacterTextSplitter` (an external
package, not part of src/) — a hard character cut into overlapping windows
(§4.2: window `i+1` starts `overlap` units before window `i` ends). -/
def hardCut (chunk_size overlap : Nat) (t : String) : List String :=
  hardCutAux chunk_size (chunk_size - overlap) (t.length + 1) t

/-- Modelled from the spec: the recursive separator phase of
`langchain_text_splitters.RecursiveCharacterTextSplitter.split_text` (an
external package, not part of src/).  Per §4.2: try the highest-priority
separator first, recursing into any segment still longer than `chunk_size`
with the next separator, falling back to the hard character cut. -/
def recSplitAux (chunk_size overlap : Nat) :
    Nat → List String → String → List String
  | _, [], t => hardCut chunk_size overlap t
  | 0, _, t => [t]
  | fuel + 1, sep :: rest, t =>
    if t.length ≤ chunk_size then [t]
    else
      let parts := t.splitOn sep
      if parts.length ≤ 1 then recSplitAux chunk_size overlap fuel rest t
      else parts.flatMap fun p => recSplitAux chunk_size overlap fuel rest p

/-- Modelled from the spec: `RecursiveCharacterTextSplitter.split_text` with
the source's configuration `separators=["\n\n", "\n", " ", ""]` (an external
package, not part of src/).  Per §4.2 every produced segment is stripped of
leading/trailing whitespace and dropped if it becomes empty. -/
def recursiveSplitText (chunk_size overlap : Nat) (text : String) : List String :=
  ((recSplitAux chunk_size overlap (text.length + 1) ["\n\n", "\n", " "] text).map
    pyStrip).filter fun s => s ≠ ""

namespace TextSplitter

/-- `TextSplitter.split` (text_splitter.py lines 20-28): return `[]` for
empty or whitespace-only input, else delegate to the underlying splitter
(`split_text`, taken as a parameter) and keep only chunks whose strip is
non-empty. -/
def split (split_text : String → List String) (text : String) : List String :=
  if pyStrip text = "" then []
  else (split_text text).filter fun c => pyStrip c ≠ ""

end TextSplitter

/-! ### Concurrency model of the semaphore-guarded fan-out

`process_chunks_advanced` creates one task per group and runs them under
`asyncio.Semaphore(max_concurrent_batches)`; each task's body — including
its outbound embedding calls — executes entirely inside
`async with semaphore`.  The cooperative scheduler may interleave the tasks
at their await points in any order, so the run is modelled as a transition
system: a task is pending until it acquires a permit, in flight (its
embedding calls outstanding) while it holds one, and done once it releases
it on exit from the `async with` block. -/

/-- Scheduling state of one group task. -/
inductive TaskState where
  | pending
  | inFlight
  | done
deriving DecidableEq, Repr

/-- Global scheduler state: free permits of the semaphore and the state of
every group task. -/
structure SemState where
  avail : Nat
  tasks : List TaskState
deriving DecidableEq, Repr

/-- Initial state of a run with `cap = max_concurrent_batches` and `n`
groups: the semaphore holds `cap` permits, every task is pending. -/
def semInit (cap n : Nat) : SemState :=
  ⟨cap, List.replicate n .pending⟩

/-- One scheduler step: a pending task acquires a permit when one is free
(`async with semaphore` entry), or an in-flight task completes and releases
its permit (block exit — on success or on exception). -/
inductive SemStep : SemState → SemState → Prop
  | acquire (s : SemState) (i : Nat) (h : s.tasks.getD i .done = .pending)
      (hfree : 0 < s.avail) :
      SemStep s ⟨s.avail - 1, s.tasks.set i .inFlight⟩
  | release (s : SemState) (i : Nat) (h : s.tasks.getD i .done = .inFlight) :
      SemStep s ⟨s.avail + 1, s.tasks.set i .done⟩

/-- States reachable by the scheduler from the initial state. -/
inductive SemReachable (cap n : Nat) : SemState → Prop
  | init : SemReachable cap n (semInit cap n)
  | step {s s' : SemState} : SemReachable cap n s → SemStep s s' →
      SemReachable cap n s'

/-- Number of groups whose embedding calls are outstanding. -/
def inFlightCount (s : SemState) : Nat :=
  (s.tasks.filter fun t => t = .inFlight).length

end CursEtl

open CursEtl

/-- A chunk carrying only text, as the coordinator receives them. -/
def mkC (t : String) : Chunk := { text := t }

/-- Coordinator run on two chunks in one group where the first embedding
call fails and the second succeeds: the results list `[b-vector]` is zipped
positionally against `[a, b]`. -/
def c1Run : List Chunk × EmbeddingStats × List Ev :=
  process_chunks_advanced
    { batchRaises := fun _ => false
      call := fun _ j _ => if j = 1 then some ([5], 1) else none
      cbThrows := fun _ => false }
    { batch_size := 10, max_concurrent_batches := 3, delay_between_batches := 0,
      has_progress_callback := false }
    [mkC "a", mkC "b"]

/-- C1: the claim states that after `process_chunks_advanced` completes the
output contains exactly the input chunks with length `total_chunks` and
`processed_chunks + failed_chunks = total_chunks`, *including* when some
individual calls of a group fail while others succeed.  The code violates
this: with chunks `["a", "b"]` in one group, the call for `"a"` failing and
the call for `"b"` succeeding with vector `[5]`, the run returns a single
chunk — chunk `"a"` carrying chunk `"b"`'s vector — drops chunk `"b"`, and
ends with `processed_chunks + failed_chunks = 1 ≠ 2 = total_chunks`. -/
theorem c1_partial_failure_drops_and_miscounts :
    c1Run.1 = [{ mkC "a" with vector := [5] }] ∧
    c1Run.1.length = 1 ∧
    c1Run.2.1.total_chunks = 2 ∧
    c1Run.2.1.processed_chunks + c1Run.2.1.failed_chunks = 1 := by
  decide

/-- Coordinator run on one group whose every individual embedding call
fails: `get_embeddings_batch` returns `[]` without raising. -/
def c2Run : List Chunk × EmbeddingStats × List Ev :=
  process_chunks_advanced
    { batchRaises := fun _ => false
      call := fun _ _ _ => none
      cbThrows := fun _ => false }
    { batch_size := 10, max_concurrent_batches := 3, delay_between_batches := 0,
      has_progress_callback := false }
    [mkC "a", mkC "b"]

/-- C2: the claim states that when the embedding service fails every
individual call of a group, the group's chunks still appear in the output
with empty vectors and `failed_chunks` grows by the group size.  The code
violates this: `get_embeddings_batch` swallows the per-task exceptions and
returns `[]` (it does not raise), so the coordinator's `zip` appends
nothing — both chunks are silently dropped and `failed_chunks` stays 0. -/
theorem c2_all_calls_fail_group_silently_dropped :
    c2Run.1 = [] ∧
    c2Run.2.1.failed_chunks = 0 ∧
    c2Run.2.1.total_chunks = 2 := by
  decide

/-- Coordinator run (one chunk, one group, successful embedding) whose
progress callback raises when invoked. -/
def c5RunThrowing : List Chunk × EmbeddingStats × List Ev :=
  process_chunks_advanced
    { batchRaises := fun _ => false
      call := fun _ _ _ => some ([3], 2)
      cbThrows := fun _ => true }
    { batch_size := 10, max_concurrent_batches := 3, delay_between_batches := 0,
      has_progress_callback := true }
    [mkC "a"]

/-- The same run with a callback that does not raise. -/
def c5RunQuiet : List Chunk × EmbeddingStats × List Ev :=
  process_chunks_advanced
    { batchRaises := fun _ => false
      call := fun _ _ _ => some ([3], 2)
      cbThrows := fun _ => false }
    { batch_size := 10, max_concurrent_batches := 3, delay_between_batches := 0,
      has_progress_callback := true }
    [mkC "a"]

/-- C5: the claim states that an exception raised by the progress callback
is caught at the call boundary and leaves the output and the statistics
unchanged.  The code violates the second half: the callback is invoked
*inside* the group's `try`, so its exception lands in the group-failure
`except` branch, which appends the group's (already appended, already
embedded) chunks a second time and increments `failed_chunks` — here the
single input chunk appears twice and `processed_chunks + failed_chunks = 2`
for one chunk, unlike the run with a well-behaved callback. -/
theorem c5_throwing_callback_corrupts_run :
    c5RunThrowing.1.length = 2 ∧
    c5RunThrowing.1 =
      [{ mkC "a" with vector := [3] }, { mkC "a" with vector := [3] }] ∧
    c5RunThrowing.2.1.processed_chunks = 1 ∧
    c5RunThrowing.2.1.failed_chunks = 1 ∧
    c5RunQuiet.1.length = 1 ∧
    c5RunQuiet.2.1.failed_chunks = 0 ∧
    c5RunThrowing.1 ≠ c5RunQuiet.1 ∧
    c5RunThrowing.2.1 ≠ c5RunQuiet.2.1 := by
  decide

/-- C3 counterexample: the claim states that a non-2xx response makes
`get_embedding` fail immediately with no retry — i.e. exactly one attempt.
With every attempt answering status 400 and `max_retries = 3`, the call
performs 3 attempts (the `YandexEmbeddingError` raised for the non-200
status is caught by the generic `except Exception` handler and retried) and
only then fails, with the API error wrapped as an "Unexpected error". -/
theorem c3_counterexample_api_error_is_retried :
    get_embedding (fun _ => .apiError 400 "bad request") 3 "hello" =
      (.error "Unexpected error: API error 400: bad request", 3) ∧
    (get_embedding (fun _ => .apiError 400 "bad request") 3 "hello").2 ≠ 1 := by
  decide

/-- Retry loop with a constant non-200 answer: it runs through all
remaining attempts and fails on the last one with the wrapped API error. -/
theorem get_embedding_go_const_apiError (status : Nat) (body : String)
    (m : Nat) :
    ∀ remaining attempt, 0 < remaining → attempt + remaining = m →
    get_embedding_go (fun _ => .apiError status body) m remaining attempt =
      (.error ("Unexpected error: API error " ++ toString status ++ ": " ++ body),
        m) := by
  intro remaining
  induction remaining with
  | zero => omega
  | succ r ih =>
    intro attempt _ hsum
    by_cases hr : r = 0
    · subst hr
      have hlast : attempt = m - 1 := by omega
      have hm : attempt + 1 = m := by omega
      simp [get_embedding_go, hlast]
      omega
    · have hne : attempt ≠ m - 1 := by omega
      simp only [get_embedding_go, if_neg hne]
      exact ih (attempt + 1) (by omega) (by omega)

/-- C3 amended: for every non-empty text and every positive retry budget, a
constant non-2xx response is retried on every attempt: the call performs
exactly `max_retries` attempts and then fails with a `YandexEmbeddingError`
whose message wraps the API error (status and body) as
`"Unexpected error: API error {status}: {body}"`. -/
theorem c3_amended_api_error_retried_to_exhaustion
    (status : Nat) (body text : String) (m : Nat)
    (hm : 0 < m) (ht : pyStrip text ≠ "") :
    get_embedding (fun _ => .apiError status body) m text =
      (.error ("Unexpected error: API error " ++ toString status ++ ": " ++ body),
        m) := by
  unfold get_embedding
  rw [if_neg ht]
  exact get_embedding_go_const_apiError status body m m 0 hm (by omega)

/-- Witness for the amended C3 theorem at `status = 403`, `m = 2`. -/
theorem c3_amended_witness :
    get_embedding (fun _ => .apiError 403 "quota") 2 "hi" =
      (.error "Unexpected error: API error 403: quota", 2) :=
  c3_amended_api_error_retried_to_exhaustion 403 "quota" "hi" 2 (by decide)
    (by decide)

/-- C4 counterexample: the claim states that *every* construction of
`YandexEmbeddingClient` raises an `AttributeError`; but with an empty
`folder_id` the `folder_id` check fires first and the constructor raises
`YandexEmbeddingError("folder_id is required")` instead, never reaching the
`api_key` read. -/
theorem c4_counterexample_empty_folder_id :
    clientInit { folder_id := "" } = .yandexError "folder_id is required" ∧
    clientInit { folder_id := "" } ≠ .attributeError "api_key" := by
  decide

/-- C4 amended: whenever `folder_id` is non-empty, `_validate_config` reads
`self.config.api_key`, an attribute the `YandexEmbeddingConfig` dataclass
does not declare (its field is `auth`), so construction raises
`AttributeError` before any I/O; and in every case — empty `folder_id`
included — construction fails, so no client instance is ever built. -/
theorem c4_amended_construction_always_fails (cfg : YandexEmbeddingConfig) :
    (cfg.folder_id ≠ "" → clientInit cfg = .attributeError "api_key") ∧
    clientInit cfg ≠ .ok := by
  constructor
  · intro h
    simp [clientInit, validate_config, configAttrTruthy, h]
  · intro hok
    by_cases h : cfg.folder_id = "" <;>
      simp [clientInit, validate_config, configAttrTruthy, h] at hok

/-- Witness for the amended C4 theorem at a concrete config. -/
theorem c4_amended_witness :
    clientInit { folder_id := "b1g" } = .attributeError "api_key" ∧
    clientInit { folder_id := "b1g" } ≠ .ok :=
  ⟨(c4_amended_construction_always_fails { folder_id := "b1g" }).1 (by decide),
   (c4_amended_construction_always_fails { folder_id := "b1g" }).2⟩

/-- Coordinator run with a failing group and a positive configured delay. -/
def c6Run : List Chunk × EmbeddingStats × List Ev :=
  process_chunks_advanced
    { batchRaises := fun _ => true
      call := fun _ _ _ => none
      cbThrows := fun _ => false }
    { batch_size := 10, max_concurrent_batches := 3, delay_between_batches := 1,
      has_progress_callback := false }
    [mkC "a"]

/-- C6 counterexample: the claim states the slot pauses after each group
"whether it succeeded or failed" whenever `delay_between_batches > 0`; but
with a raising group and delay `1` the trace of the run contains no sleep at
all — the `asyncio.sleep` sits inside the `try`, so the `except` path skips
it. -/
theorem c6_counterexample_failed_group_does_not_sleep :
    (0 : Rat) < 1 ∧ c6Run.2.2 = [Ev.apiCall 0] := by
  decide

/-- C6 amended: a group handler emits a sleep of the configured duration
before releasing its slot iff the configured delay is positive *and* the
group ran to success — its batch call returned and, when a progress callback
is configured, the callback returned without raising.  A failing group (or a
raising callback) releases the slot immediately, with no sleep. -/
theorem c6_amended_sleep_only_after_success (env : ServiceEnv)
    (cfg : BatchConfig) (total batch_index : Nat) (batch : List Chunk)
    (st : RunState) :
    ((∃ d, Ev.sleep d ∈
        (process_batch_with_semaphore env cfg total batch_index batch st).trace) ↔
      ((∃ d, Ev.sleep d ∈ st.trace) ∨
        (0 < cfg.delay_between_batches ∧
         env.batchRaises batch_index = false ∧
         (cfg.has_progress_callback = true →
           env.cbThrows batch_index = false)))) ∧
    (∀ d, Ev.sleep d ∈
        (process_batch_with_semaphore env cfg total batch_index batch st).trace →
      Ev.sleep d ∈ st.trace ∨ d = cfg.delay_between_batches) := by
  by_cases h1 : env.batchRaises batch_index
  · constructor
    · simp [process_batch_with_semaphore, h1]
    · intro d hd
      simp [process_batch_with_semaphore, h1] at hd
      exact Or.inl hd
  · by_cases h2 : cfg.has_progress_callback
    · by_cases h3 : env.cbThrows batch_index
      · constructor
        · simp [process_batch_with_semaphore, h1, h2, h3]
        · intro d hd
          simp [process_batch_with_semaphore, h1, h2, h3] at hd
          exact Or.inl hd
      · by_cases h4 : 0 < cfg.delay_between_batches
        · constructor
          · simp [process_batch_with_semaphore, h1, h2, h3, h4]
          · intro d hd
            simp [process_batch_with_semaphore, h1, h2, h3, h4] at hd
            exact hd
        · constructor
          · simp [process_batch_with_semaphore, h1, h2, h3, h4]
          · intro d hd
            simp [process_batch_with_semaphore, h1, h2, h3, h4] at hd
            exact Or.inl hd
    · by_cases h4 : 0 < cfg.delay_between_batches
      · constructor
        · simp [process_batch_with_semaphore, h1, h2, h4]
        · intro d hd
          simp [process_batch_with_semaphore, h1, h2, h4] at hd
          exact hd
      · constructor
        · simp [process_batch_with_semaphore, h1, h2, h4]
        · intro d hd
          simp [process_batch_with_semaphore, h1, h2, h4] at hd
          exact Or.inl hd

/-- Witness for the amended C6 theorem: a successful group with delay 1 does
sleep. -/
theorem c6_amended_witness :
    ∃ d, Ev.sleep d ∈
      (process_batch_with_semaphore
        { batchRaises := fun _ => false, call := fun _ _ _ => some ([2], 1),
          cbThrows := fun _ => false }
        { batch_size := 10, max_concurrent_batches := 3,
          delay_between_batches := 1, has_progress_callback := false }
        1 0 [mkC "a"] ⟨[], ⟨1, 0, 0, 0, 0⟩, []⟩).trace :=
  (c6_amended_sleep_only_after_success _ _ 1 0 [mkC "a"]
      ⟨[], ⟨1, 0, 0, 0, 0⟩, []⟩).1.mpr
    (Or.inr ⟨by decide, rfl, fun _ => rfl⟩)

/-- Replacing a non-matching element by a matching one grows the filter
count by one. -/
theorem filter_length_set_tt {α : Type} (p : α → Bool) :
    ∀ (l : List α) (i : Nat) (a b : α), l[i]? = some a →
      p a = false → p b = true →
      ((l.set i b).filter p).length = (l.filter p).length + 1 := by
  intro l
  induction l with
  | nil => intro i a b h; simp at h
  | cons x xs ih =>
    intro i a b h ha hb
    cases i with
    | zero =>
      simp at h
      subst h
      simp [List.filter_cons, ha, hb]
    | succ j =>
      simp at h
      simp only [List.set]
      by_cases hx : p x <;> simp [List.filter_cons, hx, ih j a b h ha hb]

/-- Replacing a matching element by a non-matching one shrinks the filter
count by one. -/
theorem filter_length_set_ft {α : Type} (p : α → Bool) :
    ∀ (l : List α) (i : Nat) (a b : α), l[i]? = some a →
      p a = true → p b = false →
      (l.filter p).length = ((l.set i b).filter p).length + 1 := by
  intro l
  induction l with
  | nil => intro i a b h; simp at h
  | cons x xs ih =>
    intro i a b h ha hb
    cases i with
    | zero =>
      simp at h
      subst h
      simp [List.filter_cons, ha, hb]
    | succ j =>
      simp at h
      simp only [List.set]
      by_cases hx : p x <;> simp [List.filter_cons, hx, ih j a b h ha hb]

/-- The semaphore invariant: in-flight groups plus free permits always equal
`max_concurrent_batches`. -/
theorem sem_invariant {cap n : Nat} {s : SemState}
    (h : SemReachable cap n s) : inFlightCount s + s.avail = cap := by
  induction h with
  | init =>
    simp only [inFlightCount, semInit]
    rw [List.filter_eq_nil_iff.mpr (by intro t ht; simp at ht; simp [ht])]
    simp
  | @step s s' _ hstep ih =>
    cases hstep with
    | acquire i hi hfree =>
      have hget : s.tasks[i]? = some .pending := by
        cases hg : s.tasks[i]? with
        | none => simp [List.getD, hg] at hi
        | some t => simp [List.getD, hg] at hi; simp [hi]
      have := filter_length_set_tt (fun t => t = TaskState.inFlight) s.tasks i
        .pending .inFlight hget (by simp) (by simp)
      simp only [inFlightCount] at ih ⊢
      simp only [this]
      omega
    | release i hi =>
      have hget : s.tasks[i]? = some .inFlight := by
        cases hg : s.tasks[i]? with
        | none => simp [List.getD, hg] at hi
        | some t => simp [List.getD, hg] at hi; simp [hi]
      have := filter_length_set_ft (fun t => t = TaskState.inFlight) s.tasks i
        .inFlight .done hget (by simp) (by simp)
      simp only [inFlightCount] at ih ⊢
      omega

/-- C10: in every state the coordinator's scheduler can reach, at most
`max_concurrent_batches` groups have their embedding calls outstanding —
any further group is pending until a permit frees.  (Each group's calls run
entirely inside its `async with semaphore` block.) -/
theorem c10_concurrency_bound {cap n : Nat} {s : SemState}
    (h : SemReachable cap n s) : inFlightCount s ≤ cap := by
  have := sem_invariant h
  omega

/-- Witness for the C10 bound at the initial state of a 3-permit, 5-group
run. -/
theorem c10_concurrency_bound_witness : inFlightCount (semInit 3 5) ≤ 3 :=
  c10_concurrency_bound (SemReachable.init)

/-- Folding `set` updates over a list keeps its length. -/
theorem foldl_set_length {β : Type} (ps : List (Nat × β)) (init : List β) :
    (ps.foldl (fun a p => a.set p.1 p.2) init).length = init.length := by
  induction ps generalizing init with
  | nil => rfl
  | cons q rest ih => simp [List.foldl_cons, ih]

/-- `find?` on a fst-nodup association list returns the unique entry whose
index matches. -/
theorem find?_fst_eq_of_nodup {β : Type} :
    ∀ (l : List (Nat × β)) (j : Nat), (l.map Prod.fst).Nodup →
    ∀ x ∈ l, x.1 = j → l.find? (fun p => p.1 == j) = some x := by
  intro l
  induction l with
  | nil => intro j _ x hx; simp at hx
  | cons y rest ih =>
    intro j hnd x hx hfst
    simp only [List.map_cons, List.nodup_cons] at hnd
    rcases List.mem_cons.mp hx with h | h
    · subst h
      simp [List.find?_cons, hfst]
    · have hyj : y.1 ≠ j := by
        intro hy
        apply hnd.1
        have hxm : x.1 ∈ List.map Prod.fst rest := List.mem_map.mpr ⟨x, h, rfl⟩
        rw [hy, ← hfst]
        exact hxm
      rw [List.find?_cons_of_neg _ (by simpa using hyj)]
      exact ih j hnd.2 x h hfst

/-- Placing values at pairwise-distinct in-range indices and then reading
index `j` yields the value placed at `j`, if any, else the initial entry. -/
theorem foldl_set_getElem? {β : Type} :
    ∀ (ps : List (Nat × β)) (init : List β) (j : Nat),
    (ps.map Prod.fst).Nodup → (∀ p ∈ ps, p.1 < init.length) →
    (ps.foldl (fun a p => a.set p.1 p.2) init)[j]? =
      (match ps.find? (fun p => p.1 == j) with
        | some p => some p.2
        | none => init[j]?) := by
  intro ps
  induction ps with
  | nil => intro init j _ _; rfl
  | cons q rest ih =>
    intro init j hnd hlt
    simp only [List.map_cons, List.nodup_cons] at hnd
    rw [List.foldl_cons]
    rw [ih (init.set q.1 q.2) j hnd.2
      (by intro p hp; simpa using hlt p (List.mem_cons_of_mem q hp))]
    by_cases hqj : q.1 = j
    · have hrest : rest.find? (fun p => p.1 == j) = none := by
        apply List.find?_eq_none.mpr
        intro x hx
        simp only [beq_iff_eq]
        intro hxj
        exact hnd.1 (hqj ▸ hxj ▸ List.mem_map.mpr ⟨x, hx, rfl⟩)
      rw [hrest, List.find?_cons_of_pos _ (by simpa using hqj)]
      subst hqj
      simp [List.getElem?_set_eq_of_lt _ (hlt q (List.mem_cons_self q rest))]
    · rw [List.find?_cons_of_neg _ (by simpa using hqj)]
      cases hf : rest.find? (fun p => p.1 == j) with
      | some p => simp
      | none => simp [List.getElem?_set_ne hqj]

/-- The results array built by `get_embeddings_batch` — `None` placeholders
overwritten at each valid text's original index — equals the positional map
over the enumerated inputs. -/
theorem get_embeddings_batch_results_eq_map
    (call : Nat → String → Option (List Int × Nat)) (texts : List String) :
    ((texts.enum.filter fun p => pyTextValid p.2).foldl
        (fun acc p => acc.set p.1 (call p.1 p.2))
        (List.replicate texts.length (none : Option (List Int × Nat)))) =
      texts.enum.map fun p =>
        if pyTextValid p.2 then call p.1 p.2 else none := by
  have hfold :
      ((texts.enum.filter fun p => pyTextValid p.2).foldl
          (fun acc p => acc.set p.1 (call p.1 p.2))
          (List.replicate texts.length (none : Option (List Int × Nat)))) =
        (((texts.enum.filter fun p => pyTextValid p.2).map
            fun p => (p.1, call p.1 p.2)).foldl
          (fun a p => a.set p.1 p.2)
          (List.replicate texts.length none)) := by
    rw [List.foldl_map]
  rw [hfold]
  apply List.ext_getElem?_iff.mpr
  intro j
  have hndv : (((texts.enum.filter fun p => pyTextValid p.2).map
      fun p => ((p.1, call p.1 p.2) : Nat × Option (List Int × Nat))).map
        Prod.fst).Nodup := by
    rw [List.map_map]
    have : (Prod.fst ∘ fun p : Nat × String => (p.1, call p.1 p.2)) =
        Prod.fst := rfl
    rw [this]
    exact ((List.filter_sublist _).map Prod.fst).nodup
      (List.nodup_enum_map_fst texts)
  have hbound : ∀ p ∈ ((texts.enum.filter fun p => pyTextValid p.2).map
      fun p => ((p.1, call p.1 p.2) : Nat × Option (List Int × Nat))),
      p.1 < (List.replicate texts.length
        (none : Option (List Int × Nat))).length := by
    intro p hp
    rcases List.mem_map.mp hp with ⟨q, hq, hpq⟩
    have hqe : q ∈ texts.enum := List.mem_of_mem_filter hq
    have : texts[q.1]? = some q.2 := by
      have := List.mem_enum_iff_getElem?.mp hqe
      simpa using this
    have hlt : q.1 < texts.length := by
      rcases List.getElem?_eq_some.mp this with ⟨h, _⟩
      exact h
    simpa [← hpq] using hlt
  rw [foldl_set_getElem? _ _ j hndv hbound]
  rw [List.find?_map]
  rw [List.getElem?_map, List.getElem?_enum]
  have hpred : ((fun p : Nat × Option (List Int × Nat) => p.1 == j) ∘
      fun p : Nat × String => (p.1, call p.1 p.2)) =
        fun p : Nat × String => p.1 == j := rfl
  rw [hpred]
  cases ht : texts[j]? with
  | none =>
    have hjlen : texts.length ≤ j := by
      by_contra hlt
      push_neg at hlt
      rw [List.getElem?_eq_getElem hlt] at ht
      simp at ht
    have hfn : (texts.enum.filter fun p => pyTextValid p.2).find?
        (fun p => p.1 == j) = none := by
      apply List.find?_eq_none.mpr
      intro x hx
      simp only [beq_iff_eq]
      intro hxj
      have hxe := List.mem_enum_iff_getElem?.mp (List.mem_of_mem_filter hx)
      rw [hxj, ht] at hxe
      simp at hxe
    rw [hfn]
    simp [List.getElem?_replicate, Nat.not_lt.mpr hjlen]
  | some t =>
    have hjlt : j < texts.length := by
      rcases List.getElem?_eq_some.mp ht with ⟨h, _⟩
      exact h
    by_cases hv : pyTextValid t
    · have hmem : ((j, t) : Nat × String) ∈
          texts.enum.filter fun p => pyTextValid p.2 := by
        apply List.mem_filter.mpr
        exact ⟨List.mk_mem_enum_iff_getElem?.mpr ht, by simpa using hv⟩
      rw [find?_fst_eq_of_nodup _ j
        (((List.filter_sublist _).map Prod.fst).nodup
          (List.nodup_enum_map_fst texts)) (j, t) hmem rfl]
      simp [hv]
    · have hfn : (texts.enum.filter fun p => pyTextValid p.2).find?
          (fun p => p.1 == j) = none := by
        apply List.find?_eq_none.mpr
        intro x hx
        simp only [beq_iff_eq]
        intro hxj
        have hxf := List.mem_filter.mp hx
        have hxe := List.mem_enum_iff_getElem?.mp hxf.1
        rw [hxj, ht] at hxe
        simp only [Option.some.injEq] at hxe
        apply hv
        rw [hxe]
        simpa using hxf.2
      rw [hfn]
      simp [List.getElem?_replicate, hjlt, hv]

/-- C7: `get_embeddings_batch` returns its surviving results in input
order — the output is exactly the in-order traversal of the enumerated
input texts, keeping `call i t` for each text that is non-blank and whose
individual call succeeds, and dropping entries for blank texts and failed
calls.  In particular each surviving `(vector, token count)` pair sits at
the position its source text's original index dictates relative to the
other survivors. -/
theorem c7_batch_preserves_input_order
    (call : Nat → String → Option (List Int × Nat)) (texts : List String) :
    get_embeddings_batch call texts =
      texts.enum.filterMap fun p =>
        if pyTextValid p.2 then call p.1 p.2 else none := by
  simp only [get_embeddings_batch]
  by_cases h0 : texts.isEmpty
  · have h0' : texts = [] := by simpa using h0
    subst h0'
    simp
  · rw [if_neg h0]
    by_cases h1 : (texts.enum.filter fun p => pyTextValid p.2).isEmpty
    · rw [if_pos h1]
      have h1' : (texts.enum.filter fun p => pyTextValid p.2) = [] := by
        simpa using h1
      symm
      apply List.filterMap_eq_nil_iff.mpr
      intro p hp
      have : ¬ pyTextValid p.2 = true := by
        intro hval
        have : p ∈ texts.enum.filter fun p => pyTextValid p.2 :=
          List.mem_filter.mpr ⟨hp, hval⟩
        simp [h1'] at this
      simp [this]
    · rw [if_neg h1]
      rw [get_embeddings_batch_results_eq_map]
      simp [List.reduceOption, List.filterMap_map]

/-- Forcing the version nibble yields a byte whose high nibble is 5. -/
theorem version_nibble_props : ∀ x : Nat, x < 16 →
    ((x ||| 80) / 16 = 5 ∧ (x ||| 80) < 256) := by
  decide

/-- Forcing the variant bits yields a byte whose high nibble is 8-11. -/
theorem variant_nibble_props : ∀ x : Nat, x < 64 →
    (((x ||| 128) / 16 = 8 ∨ (x ||| 128) / 16 = 9 ∨ (x ||| 128) / 16 = 10 ∨
      (x ||| 128) / 16 = 11) ∧ (x ||| 128) < 256) := by
  decide

/-- Hex digits of values below 16 are lowercase hex characters. -/
theorem hexDigitChar_mem_hex : ∀ n : Nat, n < 16 →
    hexDigitChar n ∈ "0123456789abcdef".data := by
  decide

/-- Both characters of a byte's hex rendering are hex characters. -/
theorem hexByte_subset_hex (b : Nat) (hb : b < 256) :
    ∀ c ∈ hexByte b, c ∈ "0123456789abcdef".data := by
  intro c hc
  simp only [hexByte, List.mem_cons, List.not_mem_nil, or_false] at hc
  rcases hc with h | h
  · subst h
    exact hexDigitChar_mem_hex _ (by omega)
  · subst h
    exact hexDigitChar_mem_hex _ (Nat.mod_lt _ (by norm_num))

/-- Every byte of a SHA-1 digest is below 256. -/
theorem sha1_bytes_lt (msg : List Nat) : ∀ b ∈ sha1 msg, b < 256 := by
  intro b hb
  simp only [sha1, List.mem_flatMap] at hb
  rcases hb with ⟨x, _, hx⟩
  simp only [toBytesBE32, List.mem_cons, List.not_mem_nil, or_false] at hx
  rcases hx with h | h | h | h <;> subst h <;>
    exact Nat.mod_lt _ (by norm_num)

/-- Reading a SHA-1 digest with a zero default never exceeds a byte. -/
theorem sha1_getD_lt (msg : List Nat) (i : Nat) : (sha1 msg).getD i 0 < 256 := by
  by_cases h : i < (sha1 msg).length
  · rw [List.getD_eq_getElem _ _ h]
    exact sha1_bytes_lt msg _ (List.getElem_mem h)
  · rw [List.getD_eq_default _ _ (Nat.le_of_not_lt h)]
    norm_num

/-- Standard dashed UUID text form with version 5: five dash-separated
groups of 8, 4, 4, 4 and 12 lowercase hex digits, the third group starting
with `'5'` (the version nibble) and the fourth starting with one of
`'8'`, `'9'`, `'a'`, `'b'` (the RFC 4122 variant). -/
def isUuidVersion5Text (u : String) : Prop :=
  ∃ g1 g2 g3 g4 g5 : List Char,
    u.data = g1 ++ ['-'] ++ g2 ++ ['-'] ++ g3 ++ ['-'] ++ g4 ++ ['-'] ++ g5 ∧
    g1.length = 8 ∧ g2.length = 4 ∧ g3.length = 4 ∧ g4.length = 4 ∧
    g5.length = 12 ∧
    (∀ c ∈ g1 ++ g2 ++ g3 ++ g4 ++ g5, c ∈ "0123456789abcdef".data) ∧
    g3.head? = some '5' ∧
    (∃ c, g4.head? = some c ∧ c ∈ ['8', '9', 'a', 'b'])

/-- Rendering any digest whose reads are bytes produces the standard
version-5 UUID text form. -/
theorem uuidStringOfDigest_form (d : List Nat)
    (hb : ∀ i, d.getD i 0 < 256) :
    isUuidVersion5Text (uuidStringOfDigest d) := by
  have hv := version_nibble_props (d.getD 6 0 &&& 15)
    (Nat.lt_succ_of_le Nat.and_le_right)
  have hr := variant_nibble_props (d.getD 8 0 &&& 63)
    (Nat.lt_succ_of_le Nat.and_le_right)
  refine ⟨hexByte (d.getD 0 0) ++ hexByte (d.getD 1 0) ++
      hexByte (d.getD 2 0) ++ hexByte (d.getD 3 0),
    hexByte (d.getD 4 0) ++ hexByte (d.getD 5 0),
    hexByte (uuidVersionByte (d.getD 6 0)) ++ hexByte (d.getD 7 0),
    hexByte (uuidVariantByte (d.getD 8 0)) ++ hexByte (d.getD 9 0),
    hexByte (d.getD 10 0) ++ hexByte (d.getD 11 0) ++ hexByte (d.getD 12 0) ++
      hexByte (d.getD 13 0) ++ hexByte (d.getD 14 0) ++ hexByte (d.getD 15 0),
    ?_, ?_, ?_, ?_, ?_, ?_, ?_, ?_, ?_⟩
  · simp [uuidStringOfDigest, List.append_assoc]
  · simp [hexByte]
  · simp [hexByte]
  · simp [hexByte]
  · simp [hexByte]
  · simp [hexByte]
  · intro c hc
    simp only [List.append_assoc, List.mem_append] at hc
    rcases hc with h | h | h | h | h | h | h | h | h | h | h | h | h | h | h | h
    · exact hexByte_subset_hex _ (hb 0) c h
    · exact hexByte_subset_hex _ (hb 1) c h
    · exact hexByte_subset_hex _ (hb 2) c h
    · exact hexByte_subset_hex _ (hb 3) c h
    · exact hexByte_subset_hex _ (hb 4) c h
    · exact hexByte_subset_hex _ (hb 5) c h
    · exact hexByte_subset_hex _ hv.2 c h
    · exact hexByte_subset_hex _ (hb 7) c h
    · exact hexByte_subset_hex _ hr.2 c h
    · exact hexByte_subset_hex _ (hb 9) c h
    · exact hexByte_subset_hex _ (hb 10) c h
    · exact hexByte_subset_hex _ (hb 11) c h
    · exact hexByte_subset_hex _ (hb 12) c h
    · exact hexByte_subset_hex _ (hb 13) c h
    · exact hexByte_subset_hex _ (hb 14) c h
    · exact hexByte_subset_hex _ (hb 15) c h
  · simp only [hexByte, uuidVersionByte, List.cons_append, List.head?_cons,
      Option.some.injEq]
    rw [hv.1]
    decide
  · refine ⟨hexDigitChar (uuidVariantByte (d.getD 8 0) / 16), ?_, ?_⟩
    · simp [hexByte]
    · simp only [uuidVariantByte]
      rcases hr.1 with h | h | h | h <;> rw [h] <;> decide

/-- C8: `generate_deterministic_id` is a pure function of its three inputs —
identical inputs always give the identical id — and it is exactly
`str(uuid5(NAMESPACE_URL, f"{source}|{id_in_source}|{chunk_index}"))`: the
version-5 (SHA-1-based) UUID over the fixed namespace constant and the
canonical name string, rendered in the standard dashed lowercase-hex UUID
text form with version nibble 5 and an RFC 4122 variant nibble. -/
theorem c8_generate_id_deterministic_uuid5 (s i : String) (c : Int) :
    ChunkIDGenerator.generate_deterministic_id s i c =
      uuid5String namespaceURLBytes (s ++ "|" ++ i ++ "|" ++ toString c) ∧
    (∀ s2 i2 c2, s = s2 → i = i2 → c = c2 →
      ChunkIDGenerator.generate_deterministic_id s i c =
        ChunkIDGenerator.generate_deterministic_id s2 i2 c2) ∧
    isUuidVersion5Text (ChunkIDGenerator.generate_deterministic_id s i c) := by
  refine ⟨rfl, ?_, ?_⟩
  · intro s2 i2 c2 hs hi hc
    rw [hs, hi, hc]
  · exact uuidStringOfDigest_form _ (fun j => sha1_getD_lt _ j)

/-- Witness for C8 at the concrete triple `("confluence", "123", 0)`. -/
theorem c8_witness :
    ChunkIDGenerator.generate_deterministic_id "confluence" "123" 0 =
      ChunkIDGenerator.generate_deterministic_id "confluence" "123" 0 ∧
    isUuidVersion5Text
      (ChunkIDGenerator.generate_deterministic_id "confluence" "123" 0) :=
  ⟨(c8_generate_id_deterministic_uuid5 "confluence" "123" 0).2.1
      "confluence" "123" 0 rfl rfl rfl,
   (c8_generate_id_deterministic_uuid5 "confluence" "123" 0).2.2⟩

/-- The first survivor of `dropWhile` fails the predicate. -/
theorem dropWhile_head?_not {α : Type} (p : α → Bool) (l : List α) :
    ∀ x, (l.dropWhile p).head? = some x → p x = false := by
  induction l with
  | nil => intro x h; simp at h
  | cons a as ih =>
    intro x h
    rw [List.dropWhile_cons] at h
    by_cases ha : p a
    · rw [if_pos ha] at h
      exact ih x h
    · rw [if_neg ha] at h
      simp only [List.head?_cons, Option.some.injEq] at h
      subst h
      simpa using ha
  
/-- `dropWhile` is the identity when the head already fails the predicate. -/
theorem dropWhile_of_head?_not {α : Type} (p : α → Bool) (l : List α)
    (h : ∀ x, l.head? = some x → p x = false) : l.dropWhile p = l := by
  cases l with
  | nil => rfl
  | cons a as =>
    rw [List.dropWhile_cons, h a rfl]
    simp

/-- Dropping a satisfied run twice is the same as dropping it once. -/
theorem dropWhile_idem {α : Type} (p : α → Bool) (l : List α) :
    (l.dropWhile p).dropWhile p = l.dropWhile p :=
  dropWhile_of_head?_not p _ (dropWhile_head?_not p l)

/-- A non-empty suffix shares its last element with the whole list. -/
theorem getLast?_of_suffix {α : Type} {s m : List α} (h : s <:+ m)
    (hs : s ≠ []) : s.getLast? = m.getLast? := by
  rcases h with ⟨t, rfl⟩
  exact (List.getLast?_append_of_ne_nil t hs).symm

/-- Python's `strip` is idempotent on character lists. -/
theorem pyStripList_idem (l : List Char) :
    pyStripList (pyStripList l) = pyStripList l := by
  unfold pyStripList
  have hA : ((((l.dropWhile isPySpace).reverse.dropWhile
      isPySpace).reverse).dropWhile isPySpace) =
      ((l.dropWhile isPySpace).reverse.dropWhile isPySpace).reverse := by
    apply dropWhile_of_head?_not
    intro x hx
    have hbne : (l.dropWhile isPySpace).reverse.dropWhile isPySpace ≠ [] := by
      intro hnil
      rw [hnil] at hx
      simp at hx
    have h1 : ((l.dropWhile isPySpace).reverse.dropWhile
        isPySpace).getLast? = some x := by
      rw [← List.head?_reverse]
      exact hx
    have h2 := getLast?_of_suffix
      (List.dropWhile_suffix (l := (l.dropWhile isPySpace).reverse) isPySpace)
      hbne
    rw [h2, List.getLast?_reverse] at h1
    exact dropWhile_head?_not isPySpace l x h1
  rw [hA, List.reverse_reverse, dropWhile_idem]

/-- Python's `strip` is idempotent on strings. -/
theorem pyStrip_idem (s : String) : pyStrip (pyStrip s) = pyStrip s := by
  unfold pyStrip
  rw [pyStripList_idem]

/-- C9: `TextSplitter.split` returns `[]` on empty or whitespace-only
input, and every segment it outputs is non-empty and already stripped of
leading/trailing whitespace (segments that strip to empty are dropped).
The underlying recursive splitter is the spec-modelled
`recursiveSplitText`; the blank-input guard and the empty-after-strip
filter are the source's own code. -/
theorem c9_split_blank_empty_segments_stripped
    (chunk_size overlap : Nat) (text : String) :
    (pyStrip text = "" →
      TextSplitter.split (recursiveSplitText chunk_size overlap) text = []) ∧
    (∀ s ∈ TextSplitter.split (recursiveSplitText chunk_size overlap) text,
      s ≠ "" ∧ pyStrip s = s) := by
  constructor
  · intro h
    simp [TextSplitter.split, h]
  · intro s hs
    unfold TextSplitter.split at hs
    by_cases h : pyStrip text = ""
    · simp [h] at hs
    · rw [if_neg h] at hs
      have hs1 := List.mem_filter.mp hs
      have hcond : pyStrip s ≠ "" := by simpa using hs1.2
      refine ⟨?_, ?_⟩
      · intro he
        apply hcond
        rw [he]
        rfl
      · have hmem := hs1.1
        unfold recursiveSplitText at hmem
        have hmap := (List.mem_filter.mp hmem).1
        rcases List.mem_map.mp hmap with ⟨orig, _, rfl⟩
        exact pyStrip_idem orig

/-- Witness for C9: whitespace-only input yields `[]`, and the segment
`"ab"` produced for `" ab "` is non-empty and stripped. -/
theorem c9_witness :
    TextSplitter.split (recursiveSplitText 5 1) "   " = [] ∧
    ("ab" ≠ "" ∧ pyStrip "ab" = "ab") :=
  ⟨(c9_split_blank_empty_segments_stripped 5 1 "   ").1 (by decide),
   (c9_split_blank_empty_segments_stripped 5 1 " ab ").2 "ab" (by decide)⟩
